import Mathlib

/-!
Verification of the Wispr server-authoritative state-replication core.

The definitions below are a shallow embedding of the TypeScript sources:
`WisprPath.ts` (path addressing), the patch module (patch operations and
their application), `WisprNode.ts` (observer-side node), `WisprServer.ts`
(authoritative node and registry) and the rate limiter (admission control
for bootstrap requests).

Modelling choices:
* Lua tables are association lists from keys to values (`Tree`); an absent
  key is `none`.  `{}` and `[]` are the same empty table in Lua, so both are
  `Value.table []`.
* Numbers inside state trees are integers; no verified claim depends on
  fractional state arithmetic.  Timestamps handed to the rate limiter are
  rationals, since `tick()` is real-valued.
* Functions that `error(...)` in the source return `Except String`; the
  `warn(...)`-and-skip branches return `.ok` with the state unchanged,
  exactly as the source continues after a warning.
* `getValueAtPath` / `setValueAtPath` / `deleteValueAtPath` throw on an
  invalid path in the source; every caller in the replicated-patch pipeline
  checks `isValidPath` first, and the embedding surfaces that contract as
  `isValidPath` guards in `applyPatchOperation` and as hypotheses of the
  theorems.
* In-place mutation of a nested table obtained by `getValueAtPath` is
  modelled by rebuilding the enclosing tree (`updateTableAtPath`); the trees
  manipulated by the replication core are built from JSON snapshots and
  freshly constructed operation payloads, so they contain no internal
  aliasing.
-/

namespace Wispr

/-- A path key from `WisprTypes.ts`: object field (string) or array index
(number). -/
inductive PathKey where
  | str : String → PathKey
  | num : Int → PathKey
deriving DecidableEq

/-- A replicated state value: a Lua value as far as the replication core is
concerned.  A table is an ordered association list of key/value entries. -/
inductive Value where
  | num : Int → Value
  | str : String → Value
  | bool : Bool → Value
  | table : List (PathKey × Value) → Value

/-- The entry list of a Lua table; the state owned by a node is always a
table, so tree-level functions take a `Tree`. -/
abbrev Tree := List (PathKey × Value)

/-- Lookup in a Lua table modelled as an association list (first match). -/
def alistGet {κ α : Type} [DecidableEq κ] : List (κ × α) → κ → Option α
  | [], _ => none
  | (k', v) :: rest, k => if k' = k then some v else alistGet rest k

/-- Assignment `t[k] = v` in a Lua table: replace the first binding of `k`,
or append a new one. -/
def alistSet {κ α : Type} [DecidableEq κ] : List (κ × α) → κ → α → List (κ × α)
  | [], k, v => [(k, v)]
  | (k', v') :: rest, k, v =>
    if k' = k then (k, v) :: rest else (k', v') :: alistSet rest k v

/-- Key removal `t[k] = nil` in a Lua table. -/
def alistRemove {κ α : Type} [DecidableEq κ] : List (κ × α) → κ → List (κ × α)
  | [], _ => []
  | (k', v') :: rest, k => if k' = k then rest else (k', v') :: alistRemove rest k

/-- `isValidPath` from `WisprPath.ts`: the path must be a non-empty array and
every key a string or a number.  Every `PathKey` is a string or a number by
construction, so only non-emptiness remains to check. -/
def isValidPath (path : List PathKey) : Bool :=
  !path.isEmpty

/-- The traversal loop of `getValueAtPath` (`WisprPath.ts` lines 79-90):
descend key by key, returning `none` (undefined) as soon as the current
value is not a table or the key is absent. -/
def getValueAtPathAux : Value → List PathKey → Option Value
  | v, [] => some v
  | .table entries, k :: ks =>
    match alistGet entries k with
    | none => none
    | some v => getValueAtPathAux v ks
  | _, _ :: _ => none

/-- `getValueAtPath` from `WisprPath.ts` (lines 71-91) on a table root.  The
eager invalid-path throw of the source is a caller contract; see the module
comment. -/
def getValueAtPath (obj : Tree) (path : List PathKey) : Option Value :=
  getValueAtPathAux (.table obj) path

/-- The walk-and-create loop of `setValueAtPath` (`WisprPath.ts` lines
110-129): for every intermediate key, a missing or non-table child is
replaced by a fresh empty container (`[]` or `{}`, the same empty table),
then the final key is assigned. -/
def setValueAtPathAux : Tree → List PathKey → Value → Tree
  | entries, [], _ => entries
  | entries, [k], v => alistSet entries k v
  | entries, k :: k' :: ks, v =>
    let child : Tree :=
      match alistGet entries k with
      | some (.table childEntries) => childEntries
      | _ => []
    alistSet entries k (.table (setValueAtPathAux child (k' :: ks) v))

/-- `setValueAtPath` from `WisprPath.ts` (lines 102-130). -/
def setValueAtPath (obj : Tree) (path : List PathKey) (value : Value) : Tree :=
  setValueAtPathAux obj path value

/-- The walk of `deleteValueAtPath` (`WisprPath.ts` lines 149-165): stop
silently when an intermediate is missing or not a table, otherwise remove
the final key from its parent. -/
def deleteValueAtPathAux : Tree → List PathKey → Tree
  | entries, [] => entries
  | entries, [k] => alistRemove entries k
  | entries, k :: k' :: ks =>
    match alistGet entries k with
    | some (.table childEntries) =>
      alistSet entries k (.table (deleteValueAtPathAux childEntries (k' :: ks)))
    | _ => entries

/-- `deleteValueAtPath` from `WisprPath.ts` (lines 140-166). -/
def deleteValueAtPath (obj : Tree) (path : List PathKey) : Tree :=
  deleteValueAtPathAux obj path

/-- Keys of the claim in §3 of the spec: non-empty-string keys and
non-negative integer keys. -/
def pathKeyClaimValid : PathKey → Bool
  | .str s => !s.isEmpty
  | .num n => decide (0 ≤ n)

/-- Apply an in-place mutation to the table found at `path`, the functional
rendering of `local t = getValueAtPath(state, path); mutate(t)` on the
alias-free trees of the replication core.  When the value at `path` is
missing or not a table the tree is unchanged (the source skips with a
warning in that case before mutating). -/
def updateTableAtPath : Tree → List PathKey → (Tree → Tree) → Tree
  | entries, [], _ => entries
  | entries, [k], f =>
    match alistGet entries k with
    | some (.table t) => alistSet entries k (.table (f t))
    | _ => entries
  | entries, k :: k' :: ks, f =>
    match alistGet entries k with
    | some (.table t) => alistSet entries k (.table (updateTableAtPath t (k' :: ks) f))
    | _ => entries

/-- Fuel-driven scan for `seqLen`. -/
def seqLenGo (entries : Tree) : Nat → Nat → Nat
  | 0, n => n
  | fuel + 1, n =>
    match alistGet entries (.num (Int.ofNat (n + 1))) with
    | some _ => seqLenGo entries fuel (n + 1)
    | none => n

/-- Length of the array part of a Lua table (`#t`): the largest `n` such that
the keys `1 .. n` are all present (Lua sequences are 1-indexed). -/
def seqLen (entries : Tree) : Nat :=
  seqLenGo entries entries.length 0

/-- Read the values stored at keys `1 .. n`. -/
def readSeq (entries : Tree) (n : Nat) : List Value :=
  (List.range n).filterMap (fun i => alistGet entries (.num (Int.ofNat (i + 1))))

/-- Write a list of values back at consecutive numeric keys starting at `i`. -/
def writeSeq : Tree → Nat → List Value → Tree
  | entries, _, [] => entries
  | entries, i, v :: vs => writeSeq (alistSet entries (.num (Int.ofNat i)) v) (i + 1) vs

/-- Lua `table.insert(arr, pos, v)` at the 0-based operation index, shifting
the later elements of the array part up by one.  Out-of-range indices are
clamped to the end; per §8 of the spec the out-of-range behaviour is
implementation-defined and no verified claim depends on it. -/
def seqInsert (entries : Tree) (index : Nat) (v : Value) : Tree :=
  let n := seqLen entries
  let l := readSeq entries n
  writeSeq entries 1 (l.insertIdx (min index n) v)

/-- Lua `table.remove(arr, pos)` at the 0-based operation index, shifting the
later elements of the array part down and clearing the last key.
Out-of-range indices are a no-op; per §8 of the spec the out-of-range
behaviour is implementation-defined and no verified claim depends on it. -/
def seqRemove (entries : Tree) (index : Nat) : Tree :=
  let n := seqLen entries
  if index < n then
    let l := readSeq entries n
    alistRemove (writeSeq entries 1 (l.eraseIdx index)) (.num (Int.ofNat n))
  else entries

/-- The closed set of patch operations, `WisprPatchOp` from `WisprTypes.ts`. -/
inductive WisprPatchOp where
  | set (path : List PathKey) (value : Value)
  | delete (path : List PathKey)
  | increment (path : List PathKey) (delta : Int)
  | listPush (path : List PathKey) (value : Value)
  | listInsert (path : List PathKey) (index : Int) (value : Value)
  | listRemoveAt (path : List PathKey) (index : Int)
  | mapSet (pathToMap : List PathKey) (id : String) (value : Value)
  | mapDelete (pathToMap : List PathKey) (id : String)

/-- A patch message, `WisprPatch` from `WisprTypes.ts`. -/
structure WisprPatch where
  tokenId : String
  version : Int
  operations : List WisprPatchOp

/-- `applyPatchOperation` from the patch module (`src/index.ts` lines
246-363, the validating variant): caller-contract violations (invalid path,
negative list index) `error(...)` — modelled as `.error`; data-shape
mismatches (increment on a non-number, list or map operation on a
non-table) `warn(...)` and skip, leaving the state unchanged — modelled as
`.ok state`. -/
def applyPatchOperation (state : Tree) (operation : WisprPatchOp) : Except String Tree :=
  match operation with
  | .set path value =>
    if isValidPath path then .ok (setValueAtPath state path value)
    else .error "[WisprPatch] Invalid set operation: path is required and must be valid"
  | .delete path =>
    if isValidPath path then .ok (deleteValueAtPath state path)
    else .error "[WisprPatch] Invalid delete operation: path is required and must be valid"
  | .increment path delta =>
    if isValidPath path then
      match getValueAtPath state path with
      | some (.num n) => .ok (setValueAtPath state path (.num (n + delta)))
      | _ => .ok state
    else .error "[WisprPatch] Invalid increment operation: path is required and must be valid"
  | .listPush path value =>
    if isValidPath path then
      match getValueAtPath state path with
      | some (.table _) =>
        .ok (updateTableAtPath state path
          (fun t => alistSet t (.num (Int.ofNat (seqLen t + 1))) value))
      | _ => .ok state
    else .error "[WisprPatch] Invalid listPush operation: path is required and must be valid"
  | .listInsert path index value =>
    if isValidPath path then
      if index < 0 then
        .error "[WisprPatch] Invalid listInsert operation: index must be non-negative"
      else
        match getValueAtPath state path with
        | some (.table _) =>
          .ok (updateTableAtPath state path (fun t => seqInsert t index.toNat value))
        | _ => .ok state
    else .error "[WisprPatch] Invalid listInsert operation: path is required and must be valid"
  | .listRemoveAt path index =>
    if isValidPath path then
      if index < 0 then
        .error "[WisprPatch] Invalid listRemoveAt operation: index must be non-negative"
      else
        match getValueAtPath state path with
        | some (.table _) =>
          .ok (updateTableAtPath state path (fun t => seqRemove t index.toNat))
        | _ => .ok state
    else .error "[WisprPatch] Invalid listRemoveAt operation: path is required and must be valid"
  | .mapSet pathToMap id value =>
    if isValidPath pathToMap then
      match getValueAtPath state pathToMap with
      | some (.table _) =>
        .ok (updateTableAtPath state pathToMap (fun t => alistSet t (.str id) value))
      | _ => .ok state
    else .error "[WisprPatch] Invalid mapSet operation: pathToMap is required and must be valid"
  | .mapDelete pathToMap id =>
    if isValidPath pathToMap then
      match getValueAtPath state pathToMap with
      | some (.table _) =>
        .ok (updateTableAtPath state pathToMap (fun t => alistRemove t (.str id)))
      | _ => .ok state
    else .error "[WisprPatch] Invalid mapDelete operation: pathToMap is required and must be valid"

/-- The operation loop of `applyPatch` (`src/index.ts` lines 386-388):
operations are applied in array order; an `error(...)` raised by
`applyPatchOperation` propagates and aborts the remaining iterations. -/
def applyOps (state : Tree) (operations : List WisprPatchOp) : Except String Tree :=
  match operations with
  | [] => .ok state
  | operation :: rest =>
    match applyPatchOperation state operation with
    | .ok state' => applyOps state' rest
    | .error e => .error e

/-- `applyPatch` from the patch module (`src/index.ts` lines 372-389): after
validating the patch header, applies every operation in array order. -/
def applyPatch (state : Tree) (patch : WisprPatch) : Except String Tree :=
  if patch.version < 0 then
    .error "[WisprPatch] Invalid patch: version must be a non-negative number"
  else applyOps state patch.operations

/-- Tests whether an addressed value is a number (the guard of the
increment operation). -/
def isNumberValue : Option Value → Bool
  | some (.num _) => true
  | _ => false

theorem alistGet_alistSet {κ α : Type} [DecidableEq κ]
    (m : List (κ × α)) (k : κ) (v : α) :
    alistGet (alistSet m k v) k = some v := by
  induction m with
  | nil => simp [alistSet, alistGet]
  | cons hd rest ih =>
    obtain ⟨k', v'⟩ := hd
    by_cases hk : k' = k
    · simp [alistSet, alistGet, hk]
    · simp [alistSet, alistGet, hk, ih]

theorem setValueAtPath_get_general (v : Value) :
    ∀ (p : List PathKey) (t : Tree), p ≠ [] →
      getValueAtPath (setValueAtPath t p v) p = some v := by
  intro p
  induction p with
  | nil => intro t h; exact absurd rfl h
  | cons k ks ih =>
    intro t _
    cases ks with
    | nil =>
      simp [setValueAtPath, setValueAtPathAux, getValueAtPath, getValueAtPathAux,
        alistGet_alistSet]
    | cons k2 ks2 =>
      simp only [setValueAtPath, setValueAtPathAux, getValueAtPath, getValueAtPathAux,
        alistGet_alistSet]
      exact ih _ (List.cons_ne_nil _ _)

/-- C4: for every table `T`, every valid path `P` (non-empty, string keys and
non-negative integer keys) and every value `v`, `setValueAtPath T P v`
followed by `getValueAtPath _ P` returns `v`: `setValueAtPath` creates any
missing intermediate containers, so the subsequent get finds the value. -/
theorem setValueAtPath_getValueAtPath_roundtrip
    (t : Tree) (p : List PathKey) (v : Value)
    (hne : p ≠ []) (_hkeys : p.all pathKeyClaimValid = true) :
    getValueAtPath (setValueAtPath t p v) p = some v :=
  setValueAtPath_get_general v p t hne

theorem setValueAtPath_getValueAtPath_roundtrip_w :
    getValueAtPath
        (setValueAtPath [] [PathKey.str "inventory", PathKey.num 0, PathKey.str "gold"]
          (Value.num 7))
        [PathKey.str "inventory", PathKey.num 0, PathKey.str "gold"] =
      some (Value.num 7) :=
  setValueAtPath_getValueAtPath_roundtrip []
    [PathKey.str "inventory", PathKey.num 0, PathKey.str "gold"]
    (Value.num 7) (by decide) (by decide)

theorem applyOps_append (s : Tree) (l₁ l₂ : List WisprPatchOp) :
    applyOps s (l₁ ++ l₂) = Except.bind (applyOps s l₁) (fun t => applyOps t l₂) := by
  induction l₁ generalizing s with
  | nil => simp [applyOps, Except.bind]
  | cons op rest ih =>
    cases h : applyPatchOperation s op with
    | ok s' => simp [applyOps, h, ih, Except.bind]
    | error e => simp [applyOps, h, Except.bind]

theorem applyPatchOperation_increment_nonnumber (s : Tree) (p : List PathKey) (d : Int)
    (hp : isValidPath p = true)
    (h : isNumberValue (getValueAtPath s p) = false) :
    applyPatchOperation s (.increment p d) = .ok s := by
  simp only [applyPatchOperation]
  rw [if_pos hp]
  cases hv : getValueAtPath s p with
  | none => rfl
  | some v =>
    cases v with
    | num n => rw [hv] at h; simp [isNumberValue] at h
    | str a => rfl
    | bool b => rfl
    | table t => rfl

/-- Tests whether an addressed value is a table (the guard of the list and
map operations). -/
def isTableValue : Option Value → Bool
  | some (.table _) => true
  | _ => false

/-- An operation that hits a data-shape mismatch in state `s`: a valid
operation whose addressed target has the wrong shape — an increment whose
target is not a number, a list operation whose target is not a table, or a
map operation whose `pathToMap` target is not a table.  These are exactly
the `warn(...)`-and-skip branches of `applyPatchOperation`. -/
def isShapeMismatch (s : Tree) : WisprPatchOp → Bool
  | .increment p _ => isValidPath p && !isNumberValue (getValueAtPath s p)
  | .listPush p _ => isValidPath p && !isTableValue (getValueAtPath s p)
  | .listInsert p i _ => isValidPath p && decide (0 ≤ i) && !isTableValue (getValueAtPath s p)
  | .listRemoveAt p i => isValidPath p && decide (0 ≤ i) && !isTableValue (getValueAtPath s p)
  | .mapSet pm _ _ => isValidPath pm && !isTableValue (getValueAtPath s pm)
  | .mapDelete pm _ => isValidPath pm && !isTableValue (getValueAtPath s pm)
  | _ => false

/-- An operation that fails validation in `applyPatchOperation`: an invalid
path, or a negative index in a list insert or remove.  These are exactly
the `error(...)` branches. -/
def isInvalidOp : WisprPatchOp → Bool
  | .set p _ => !isValidPath p
  | .delete p => !isValidPath p
  | .increment p _ => !isValidPath p
  | .listPush p _ => !isValidPath p
  | .listInsert p i _ => !isValidPath p || decide (i < 0)
  | .listRemoveAt p i => !isValidPath p || decide (i < 0)
  | .mapSet pm _ _ => !isValidPath pm
  | .mapDelete pm _ => !isValidPath pm

theorem applyPatchOperation_shape_mismatch_ok (s : Tree) (op : WisprPatchOp)
    (h : isShapeMismatch s op = true) : applyPatchOperation s op = .ok s := by
  cases op with
  | set p v => simp [isShapeMismatch] at h
  | delete p => simp [isShapeMismatch] at h
  | increment p d =>
    simp only [isShapeMismatch, Bool.and_eq_true, Bool.not_eq_true'] at h
    exact applyPatchOperation_increment_nonnumber s p d h.1 h.2
  | listPush p v =>
    simp only [isShapeMismatch, Bool.and_eq_true, Bool.not_eq_true'] at h
    obtain ⟨hp, ht⟩ := h
    simp only [applyPatchOperation]
    rw [if_pos hp]
    cases hv : getValueAtPath s p with
    | none => rfl
    | some w =>
      cases w with
      | table t => rw [hv] at ht; simp [isTableValue] at ht
      | num n => rfl
      | str a => rfl
      | bool b => rfl
  | listInsert p i v =>
    simp only [isShapeMismatch, Bool.and_eq_true, Bool.not_eq_true',
      decide_eq_true_eq] at h
    obtain ⟨⟨hp, hi⟩, ht⟩ := h
    simp only [applyPatchOperation]
    rw [if_pos hp, if_neg (not_lt.mpr hi)]
    cases hv : getValueAtPath s p with
    | none => rfl
    | some w =>
      cases w with
      | table t => rw [hv] at ht; simp [isTableValue] at ht
      | num n => rfl
      | str a => rfl
      | bool b => rfl
  | listRemoveAt p i =>
    simp only [isShapeMismatch, Bool.and_eq_true, Bool.not_eq_true',
      decide_eq_true_eq] at h
    obtain ⟨⟨hp, hi⟩, ht⟩ := h
    simp only [applyPatchOperation]
    rw [if_pos hp, if_neg (not_lt.mpr hi)]
    cases hv : getValueAtPath s p with
    | none => rfl
    | some w =>
      cases w with
      | table t => rw [hv] at ht; simp [isTableValue] at ht
      | num n => rfl
      | str a => rfl
      | bool b => rfl
  | mapSet pm id v =>
    simp only [isShapeMismatch, Bool.and_eq_true, Bool.not_eq_true'] at h
    obtain ⟨hp, ht⟩ := h
    simp only [applyPatchOperation]
    rw [if_pos hp]
    cases hv : getValueAtPath s pm with
    | none => rfl
    | some w =>
      cases w with
      | table t => rw [hv] at ht; simp [isTableValue] at ht
      | num n => rfl
      | str a => rfl
      | bool b => rfl
  | mapDelete pm id =>
    simp only [isShapeMismatch, Bool.and_eq_true, Bool.not_eq_true'] at h
    obtain ⟨hp, ht⟩ := h
    simp only [applyPatchOperation]
    rw [if_pos hp]
    cases hv : getValueAtPath s pm with
    | none => rfl
    | some w =>
      cases w with
      | table t => rw [hv] at ht; simp [isTableValue] at ht
      | num n => rfl
      | str a => rfl
      | bool b => rfl

/-- Tests whether an `Except` value carries an error (a raised
`error(...)`). -/
def exceptIsError {ε α : Type} : Except ε α → Bool
  | .error _ => true
  | .ok _ => false

theorem exceptIsError_applyPatchOperation (s : Tree) (op : WisprPatchOp) :
    exceptIsError (applyPatchOperation s op) = isInvalidOp op := by
  cases op with
  | set p v =>
    by_cases hp : isValidPath p = true
    · simp [applyPatchOperation, isInvalidOp, exceptIsError, hp]
    · simp only [Bool.not_eq_true] at hp
      simp [applyPatchOperation, isInvalidOp, exceptIsError, hp]
  | delete p =>
    by_cases hp : isValidPath p = true
    · simp [applyPatchOperation, isInvalidOp, exceptIsError, hp]
    · simp only [Bool.not_eq_true] at hp
      simp [applyPatchOperation, isInvalidOp, exceptIsError, hp]
  | increment p d =>
    by_cases hp : isValidPath p = true
    · cases hv : getValueAtPath s p with
      | none => simp [applyPatchOperation, isInvalidOp, exceptIsError, hp, hv]
      | some w =>
        cases w <;> simp [applyPatchOperation, isInvalidOp, exceptIsError, hp, hv]
    · simp only [Bool.not_eq_true] at hp
      simp [applyPatchOperation, isInvalidOp, exceptIsError, hp]
  | listPush p v =>
    by_cases hp : isValidPath p = true
    · cases hv : getValueAtPath s p with
      | none => simp [applyPatchOperation, isInvalidOp, exceptIsError, hp, hv]
      | some w =>
        cases w <;> simp [applyPatchOperation, isInvalidOp, exceptIsError, hp, hv]
    · simp only [Bool.not_eq_true] at hp
      simp [applyPatchOperation, isInvalidOp, exceptIsError, hp]
  | listInsert p i v =>
    by_cases hp : isValidPath p = true
    · by_cases hi : i < 0
      · simp [applyPatchOperation, isInvalidOp, exceptIsError, hp, hi]
      · cases hv : getValueAtPath s p with
        | none => simp [applyPatchOperation, isInvalidOp, exceptIsError, hp, hi, hv]
        | some w =>
          cases w <;>
            simp [applyPatchOperation, isInvalidOp, exceptIsError, hp, hi, hv]
    · simp only [Bool.not_eq_true] at hp
      simp [applyPatchOperation, isInvalidOp, exceptIsError, hp]
  | listRemoveAt p i =>
    by_cases hp : isValidPath p = true
    · by_cases hi : i < 0
      · simp [applyPatchOperation, isInvalidOp, exceptIsError, hp, hi]
      · cases hv : getValueAtPath s p with
        | none => simp [applyPatchOperation, isInvalidOp, exceptIsError, hp, hi, hv]
        | some w =>
          cases w <;>
            simp [applyPatchOperation, isInvalidOp, exceptIsError, hp, hi, hv]
    · simp only [Bool.not_eq_true] at hp
      simp [applyPatchOperation, isInvalidOp, exceptIsError, hp]
  | mapSet pm id v =>
    by_cases hp : isValidPath pm = true
    · cases hv : getValueAtPath s pm with
      | none => simp [applyPatchOperation, isInvalidOp, exceptIsError, hp, hv]
      | some w =>
        cases w <;> simp [applyPatchOperation, isInvalidOp, exceptIsError, hp, hv]
    · simp only [Bool.not_eq_true] at hp
      simp [applyPatchOperation, isInvalidOp, exceptIsError, hp]
  | mapDelete pm id =>
    by_cases hp : isValidPath pm = true
    · cases hv : getValueAtPath s pm with
      | none => simp [applyPatchOperation, isInvalidOp, exceptIsError, hp, hv]
      | some w =>
        cases w <;> simp [applyPatchOperation, isInvalidOp, exceptIsError, hp, hv]
    · simp only [Bool.not_eq_true] at hp
      simp [applyPatchOperation, isInvalidOp, exceptIsError, hp]

/-- C3 (amended): `applyPatch` applies the operations of a patch in array
order.  A data-shape mismatch in one operation — an increment whose target
is not a number, a list operation whose target is not a table, or a map
operation whose `pathToMap` target is not a table — is skipped with a
warning, leaves the state unchanged, and does not prevent the application
of the later operations of the patch.  An operation that raises, however,
aborts the remaining operations with its error, and the operations that
raise are exactly those failing validation (invalid path, or negative
index in a list insert or remove; see the counterexample). -/
theorem applyOps_shape_mismatch_skipped (s s₁ : Tree)
    (ops₁ ops₂ : List WisprPatchOp) (op : WisprPatchOp)
    (h1 : applyOps s ops₁ = .ok s₁) :
    (isShapeMismatch s₁ op = true →
      applyPatchOperation s₁ op = .ok s₁ ∧
      applyOps s (ops₁ ++ op :: ops₂) = applyOps s₁ ops₂ ∧
      applyOps s (ops₁ ++ ops₂) = applyOps s₁ ops₂) ∧
    (∀ e, applyPatchOperation s₁ op = .error e →
      applyOps s (ops₁ ++ op :: ops₂) = .error e) ∧
    exceptIsError (applyPatchOperation s₁ op) = isInvalidOp op := by
  refine ⟨?_, ?_, exceptIsError_applyPatchOperation s₁ op⟩
  · intro hm
    have hskip := applyPatchOperation_shape_mismatch_ok s₁ op hm
    refine ⟨hskip, ?_, ?_⟩
    · rw [applyOps_append, h1]
      simp [Except.bind, applyOps, hskip]
    · rw [applyOps_append, h1]
      simp [Except.bind]
  · intro e he
    rw [applyOps_append, h1]
    simp [Except.bind, applyOps, he]

theorem applyOps_shape_mismatch_skipped_w :
    applyPatchOperation [(PathKey.str "m", Value.num 3)]
        (WisprPatchOp.mapSet [PathKey.str "m"] "k" (Value.num 1)) =
      .ok [(PathKey.str "m", Value.num 3)] ∧
    applyOps []
        ([WisprPatchOp.set [PathKey.str "m"] (Value.num 3)] ++
          WisprPatchOp.mapSet [PathKey.str "m"] "k" (Value.num 1) ::
            [WisprPatchOp.set [PathKey.str "b"] (Value.num 2)]) =
      applyOps [(PathKey.str "m", Value.num 3)]
        [WisprPatchOp.set [PathKey.str "b"] (Value.num 2)] ∧
    applyOps []
        ([WisprPatchOp.set [PathKey.str "m"] (Value.num 3)] ++
          [WisprPatchOp.set [PathKey.str "b"] (Value.num 2)]) =
      applyOps [(PathKey.str "m", Value.num 3)]
        [WisprPatchOp.set [PathKey.str "b"] (Value.num 2)] :=
  (applyOps_shape_mismatch_skipped [] [(PathKey.str "m", Value.num 3)]
    [WisprPatchOp.set [PathKey.str "m"] (Value.num 3)]
    [WisprPatchOp.set [PathKey.str "b"] (Value.num 2)]
    (WisprPatchOp.mapSet [PathKey.str "m"] "k" (Value.num 1)) rfl).1 rfl

/-- C3 (counterexample to the claim as stated): a patch whose first
operation is invalid (empty path) aborts with an error, and its second
operation — which succeeds when applied on its own — is never applied, so a
failure in one operation does prevent the application of the later
operations. -/
theorem applyPatch_abort_counterexample :
    applyPatch []
        { tokenId := "t", version := 1,
          operations := [WisprPatchOp.set [] (Value.num 1),
                         WisprPatchOp.set [PathKey.str "a"] (Value.num 1)] } =
      .error "[WisprPatch] Invalid set operation: path is required and must be valid" ∧
    applyPatchOperation [] (WisprPatchOp.set [PathKey.str "a"] (Value.num 1)) =
      .ok [(PathKey.str "a", Value.num 1)] :=
  ⟨rfl, rfl⟩

/-- An observer identity; a `Player` is opaque to the replication core and
modelled by an identifier string. -/
abbrev Player := String

/-- `WisprScope` from `WisprTypes.ts`. -/
inductive WisprScope where
  | all
  | player (player : Player)
  | players (players : List Player)

/-- `WisprSnapshot` from `WisprTypes.ts`. -/
structure WisprSnapshot where
  tokenId : String
  version : Int
  data : Tree

/-- `WisprServerNode` (`WisprServer.ts` lines 41-100): the authoritative
owner of one state tree, its version counter and its visibility scope. -/
structure WisprServerNode where
  tokenId : String
  scope : WisprScope
  state : Tree
  version : Int

/-- `WisprServerNode.applyOperation` (`WisprServer.ts` lines 71-74): apply
via the patch applier, then increment the version by exactly 1.  When
`applyPatchOperation` raises, the increment is never reached. -/
def WisprServerNode.applyOperation (n : WisprServerNode) (operation : WisprPatchOp) :
    Except String WisprServerNode :=
  match applyPatchOperation n.state operation with
  | .ok state' => .ok { n with state := state', version := n.version + 1 }
  | .error e => .error e

/-- `createSnapshot` (`WisprServer.ts` lines 79-85): the source deep-copies
the state through a JSON round-trip, which is structural identity here. -/
def WisprServerNode.createSnapshot (n : WisprServerNode) : WisprSnapshot :=
  { tokenId := n.tokenId, version := n.version, data := n.state }

/-- `shouldReplicateTo` (`WisprServer.ts` lines 90-99). -/
def WisprServerNode.shouldReplicateTo (n : WisprServerNode) (player : Player) : Bool :=
  match n.scope with
  | .all => true
  | .player p => decide (p = player)
  | .players ps => ps.contains player

/-- A message on the state-update remote (`WisprTypes.ts`). -/
inductive WisprMessage where
  | create (tokenId : String) (snapshot : WisprSnapshot)
  | patch (patch : WisprPatch)
  | destroy (tokenId : String)

/-- One transport send performed by a broadcast: `FireAllClients` or
`FireClient` on the state-update remote. -/
inductive Send where
  | fireAllClients (message : WisprMessage)
  | fireClient (player : Player) (message : WisprMessage)

/-- Whether a send is delivered to `player`, given the clients connected at
the time of the send: `FireAllClients` reaches every connected client and
`FireClient` exactly its addressee. -/
def Send.deliversTo (connected : List Player) : Send → Player → Bool
  | .fireAllClients _, player => connected.contains player
  | .fireClient q _, player => decide (q = player)

/-- `broadcastCreate` (`WisprServer.ts` lines 227-242). -/
def broadcastCreate (node : WisprServerNode) : List Send :=
  let message := WisprMessage.create node.tokenId node.createSnapshot
  match node.scope with
  | .all => [.fireAllClients message]
  | .player p => [.fireClient p message]
  | .players ps => ps.map (fun p => .fireClient p message)

/-- `broadcastPatch` (`WisprServer.ts` lines 247-257). -/
def broadcastPatch (node : WisprServerNode) (patch : WisprPatch) : List Send :=
  match node.scope with
  | .all => [.fireAllClients (.patch patch)]
  | .player p => [.fireClient p (.patch patch)]
  | .players ps => ps.map (fun p => .fireClient p (.patch patch))

/-- `broadcastDestroy` (`WisprServer.ts` lines 262-277). -/
def broadcastDestroy (tokenId : String) (scope : WisprScope) : List Send :=
  match scope with
  | .all => [.fireAllClients (.destroy tokenId)]
  | .player p => [.fireClient p (.destroy tokenId)]
  | .players ps => ps.map (fun p => .fireClient p (.destroy tokenId))

/-- The operation loop of `patchNodeMultiple` (`WisprServer.ts` lines
209-211): apply each operation to the node in turn, each call incrementing
the version. -/
def applyOperationsLoop (node : WisprServerNode) :
    List WisprPatchOp → Except String WisprServerNode
  | [] => .ok node
  | operation :: rest =>
    match node.applyOperation operation with
    | .ok node' => applyOperationsLoop node' rest
    | .error e => .error e

/-- `patchNode` (`WisprServer.ts` lines 176-194): look the node up, apply
the single operation (incrementing the version), then emit a patch carrying
the node's new version and broadcast it.  The result is the updated
registry map, the emitted patch and the transport sends. -/
def patchNode (nodes : List (String × WisprServerNode)) (tokenId : String)
    (operation : WisprPatchOp) :
    Except String (List (String × WisprServerNode) × WisprPatch × List Send) :=
  match alistGet nodes tokenId with
  | none => .error "[WisprServer] Cannot patch non-existent node"
  | some node =>
    match node.applyOperation operation with
    | .error e => .error e
    | .ok node' =>
      let patch : WisprPatch :=
        { tokenId := tokenId, version := node'.version, operations := [operation] }
      .ok (alistSet nodes tokenId node', patch, broadcastPatch node' patch)

/-- `patchNodeMultiple` (`WisprServer.ts` lines 202-222): apply all
operations (each incrementing the version), then emit one patch carrying
the final version and all operations.  When an operation raises mid-loop
the source leaves the earlier operations applied on the shared node object;
the `.error` result of this model elides that partially-mutated registry,
and no verified claim concerns it. -/
def patchNodeMultiple (nodes : List (String × WisprServerNode)) (tokenId : String)
    (operations : List WisprPatchOp) :
    Except String (List (String × WisprServerNode) × WisprPatch × List Send) :=
  match alistGet nodes tokenId with
  | none => .error "[WisprServer] Cannot patch non-existent node"
  | some node =>
    match applyOperationsLoop node operations with
    | .error e => .error e
    | .ok node' =>
      let patch : WisprPatch :=
        { tokenId := tokenId, version := node'.version, operations := operations }
      .ok (alistSet nodes tokenId node', patch, broadcastPatch node' patch)

theorem applyOperation_ok_version (n n' : WisprServerNode) (operation : WisprPatchOp)
    (h : n.applyOperation operation = .ok n') : n'.version = n.version + 1 := by
  unfold WisprServerNode.applyOperation at h
  cases happ : applyPatchOperation n.state operation with
  | ok s' => rw [happ] at h; cases h; rfl
  | error e => rw [happ] at h; cases h

theorem applyOperationsLoop_version (operations : List WisprPatchOp) :
    ∀ (n n' : WisprServerNode), applyOperationsLoop n operations = .ok n' →
      n'.version = n.version + operations.length := by
  induction operations with
  | nil => intro n n' h; cases h; simp
  | cons operation rest ih =>
    intro n n' h
    unfold applyOperationsLoop at h
    cases happ : n.applyOperation operation with
    | ok n1 =>
      rw [happ] at h
      have h1 := applyOperation_ok_version n n1 operation happ
      have h2 := ih n1 n' h
      rw [h2, h1]
      simp
      ring
    | error e => rw [happ] at h; cases h

/-- C2 (amended): an applied operation-batch call advances the node's
version by exactly the number of operations in the batch — `patchNode`
(one operation) by exactly 1, and `patchNodeMultiple` with `k` operations
by exactly `k` — and the emitted patch's version equals the node's version
after applying all of the batch's operations.  The claim's "exactly
`v + 1` per batch call" holds only for single-operation batches (see the
counterexample). -/
theorem patchNode_version_increment (nodes : List (String × WisprServerNode))
    (tokenId : String) (node : WisprServerNode)
    (hn : alistGet nodes tokenId = some node) :
    (∀ operation nodes' patch sends,
      patchNode nodes tokenId operation = .ok (nodes', patch, sends) →
        ∃ node', alistGet nodes' tokenId = some node' ∧
          node'.version = node.version + 1 ∧ patch.version = node'.version) ∧
    (∀ operations nodes' patch sends,
      patchNodeMultiple nodes tokenId operations = .ok (nodes', patch, sends) →
        ∃ node', alistGet nodes' tokenId = some node' ∧
          node'.version = node.version + operations.length ∧
          patch.version = node'.version) := by
  constructor
  · intro operation nodes' patch sends h
    simp only [patchNode, hn] at h
    cases happ : node.applyOperation operation with
    | ok node1 =>
      rw [happ] at h
      simp only [Except.ok.injEq, Prod.mk.injEq] at h
      obtain ⟨h1, h2, h3⟩ := h
      refine ⟨node1, ?_, ?_, ?_⟩
      · rw [← h1]; exact alistGet_alistSet nodes tokenId node1
      · exact applyOperation_ok_version node node1 operation happ
      · rw [← h2]
    | error e => rw [happ] at h; cases h
  · intro operations nodes' patch sends h
    simp only [patchNodeMultiple, hn] at h
    cases happ : applyOperationsLoop node operations with
    | ok node1 =>
      rw [happ] at h
      simp only [Except.ok.injEq, Prod.mk.injEq] at h
      obtain ⟨h1, h2, h3⟩ := h
      refine ⟨node1, ?_, ?_, ?_⟩
      · rw [← h1]; exact alistGet_alistSet nodes tokenId node1
      · exact applyOperationsLoop_version operations node node1 happ
      · rw [← h2]
    | error e => rw [happ] at h; cases h

/-- Example node used by the version-counting claims. -/
def nodeC2 : WisprServerNode :=
  { tokenId := "t", scope := .all, state := [], version := 0 }

/-- Example two-operation batch used by the version-counting claims. -/
def opsC2 : List WisprPatchOp :=
  [WisprPatchOp.set [PathKey.str "a"] (Value.num 1),
   WisprPatchOp.set [PathKey.str "b"] (Value.num 2)]

/-- The node `nodeC2` after the batch `opsC2`. -/
def nodeC2' : WisprServerNode :=
  { tokenId := "t", scope := .all,
    state := [(PathKey.str "a", Value.num 1), (PathKey.str "b", Value.num 2)],
    version := 2 }

/-- The patch emitted for the batch `opsC2`. -/
def patchC2 : WisprPatch :=
  { tokenId := "t", version := 2, operations := opsC2 }

/-- C2 (counterexample to the claim as stated): a `patchNodeMultiple` call
with a non-empty list of two operations on a node at version 0 leaves the
node — and the emitted patch — at version 2, not `0 + 1`. -/
theorem patchNodeMultiple_version_counterexample :
    Except.map (fun r => r.2.1.version)
        (patchNodeMultiple [("t", nodeC2)] "t" opsC2) = .ok 2 ∧
    ((2 : Int) = 0 + 1 → False) :=
  ⟨rfl, by decide⟩

theorem patchNode_version_increment_w :
    ∃ node', alistGet [("t", nodeC2')] "t" = some node' ∧
      node'.version = nodeC2.version + opsC2.length ∧
      patchC2.version = node'.version :=
  (patchNode_version_increment [("t", nodeC2)] "t" nodeC2 rfl).2 opsC2
    [("t", nodeC2')] patchC2 [Send.fireAllClients (.patch patchC2)] rfl

/-- C8: `WisprServerNode.applyOperation` increments the node's version by
exactly 1 on every call that does not raise — in particular also when the
operation is skipped as a benign no-op (here: an increment whose target is
not a number), where the state is left unchanged while the authoritative
version still advances with no corresponding state change. -/
theorem applyOperation_version_increment_on_skip (n : WisprServerNode) :
    (∀ operation state', applyPatchOperation n.state operation = .ok state' →
        n.applyOperation operation = .ok { n with state := state', version := n.version + 1 }) ∧
    (∀ p d, isValidPath p = true → isNumberValue (getValueAtPath n.state p) = false →
        n.applyOperation (.increment p d) = .ok { n with version := n.version + 1 }) := by
  constructor
  · intro operation state' h
    simp only [WisprServerNode.applyOperation, h]
  · intro p d hp hnum
    have hskip := applyPatchOperation_increment_nonnumber n.state p d hp hnum
    simp only [WisprServerNode.applyOperation, hskip]

theorem applyOperation_version_increment_on_skip_w :
    WisprServerNode.applyOperation
        { tokenId := "t", scope := .all,
          state := [(PathKey.str "a", Value.str "x")], version := 0 }
        (.increment [PathKey.str "a"] 5) =
      .ok { tokenId := "t", scope := .all,
            state := [(PathKey.str "a", Value.str "x")], version := 1 } :=
  (applyOperation_version_increment_on_skip
      { tokenId := "t", scope := .all,
        state := [(PathKey.str "a", Value.str "x")], version := 0 }).2
    [PathKey.str "a"] 5 rfl rfl

/-- C5: a node whose scope is `player A` broadcasts its create, patch and
destroy messages only through `FireClient A` — never `FireAllClients`, and
no identity other than `A` receives a delivery — while a node with scope
`all` broadcasts every such message through `FireAllClients`, which reaches
every client connected at the time of the send. -/
theorem broadcast_scope_delivery (A B : Player) (tid : String) (st : Tree) (v : Int)
    (patch : WisprPatch) (connected : List Player) :
    (∀ s ∈ broadcastCreate ⟨tid, .player A, st, v⟩ ++
          broadcastPatch ⟨tid, .player A, st, v⟩ patch ++
          broadcastDestroy tid (.player A),
        (∃ m, s = Send.fireClient A m) ∧ (s.deliversTo connected B = true → B = A)) ∧
    (∀ s ∈ broadcastCreate ⟨tid, .all, st, v⟩ ++
          broadcastPatch ⟨tid, .all, st, v⟩ patch ++
          broadcastDestroy tid .all,
        (∃ m, s = Send.fireAllClients m) ∧
          s.deliversTo connected B = connected.contains B) := by
  constructor
  · intro s hs
    have e : broadcastCreate ⟨tid, .player A, st, v⟩ ++
        broadcastPatch ⟨tid, .player A, st, v⟩ patch ++
        broadcastDestroy tid (.player A) =
        [Send.fireClient A (.create tid ⟨tid, v, st⟩),
         Send.fireClient A (.patch patch),
         Send.fireClient A (.destroy tid)] := rfl
    rw [e] at hs
    simp only [List.mem_cons, List.not_mem_nil, or_false] at hs
    rcases hs with h | h | h <;> subst h <;>
      exact ⟨⟨_, rfl⟩, fun hb => (of_decide_eq_true hb).symm⟩
  · intro s hs
    have e : broadcastCreate ⟨tid, .all, st, v⟩ ++
        broadcastPatch ⟨tid, .all, st, v⟩ patch ++
        broadcastDestroy tid .all =
        [Send.fireAllClients (.create tid ⟨tid, v, st⟩),
         Send.fireAllClients (.patch patch),
         Send.fireAllClients (.destroy tid)] := rfl
    rw [e] at hs
    simp only [List.mem_cons, List.not_mem_nil, or_false] at hs
    rcases hs with h | h | h <;> subst h <;> exact ⟨⟨_, rfl⟩, rfl⟩

theorem broadcast_scope_delivery_w :
    (∃ m, (Send.fireClient "alice" (WisprMessage.create "t" ⟨"t", 0, []⟩) : Send) =
        Send.fireClient "alice" m) ∧
    ((Send.fireClient "alice" (WisprMessage.create "t" ⟨"t", 0, []⟩)).deliversTo
        ["alice", "bob"] "bob" = true → "bob" = "alice") :=
  (broadcast_scope_delivery "alice" "bob" "t" [] 0 ⟨"t", 1, []⟩ ["alice", "bob"]).1
    (Send.fireClient "alice" (WisprMessage.create "t" ⟨"t", 0, []⟩))
    (by
      show _ ∈ [Send.fireClient "alice" (WisprMessage.create "t" ⟨"t", 0, []⟩),
                Send.fireClient "alice" (WisprMessage.patch ⟨"t", 1, []⟩),
                Send.fireClient "alice" (WisprMessage.destroy "t")]
      exact List.mem_cons_self _ _)

/-- Stringification of a path key, `tostring(key)` in `pathToKey`. -/
def keyToString : PathKey → String
  | .str s => s
  | .num n => toString n

/-- `pathToKey` (`WisprNode.ts` lines 279-281): join the stringified keys
with ".". -/
def pathToKey (path : List PathKey) : String :=
  String.intercalate "." (path.map keyToString)

/-- The path whose subscription an operation touches (`WisprNode.ts` lines
141-150): map operations resolve to `pathToMap ++ [id]`, the others use
their `path` field. -/
def opSignalPath : WisprPatchOp → List PathKey
  | .set p _ => p
  | .delete p => p
  | .increment p _ => p
  | .listPush p _ => p
  | .listInsert p _ _ => p
  | .listRemoveAt p _ => p
  | .mapSet pm id _ => pm ++ [.str id]
  | .mapDelete pm id => pm ++ [.str id]

/-- JavaScript strict inequality `newValue !== oldValue` as it occurs in
`WisprNode.applyPatch`: the old value is read from a deep copy of the
pre-patch state, so two table values are always distinct references and
compare unequal; primitives compare by value; absent equals absent. -/
def jsStrictNeqAfterCopy : Option Value → Option Value → Bool
  | none, none => false
  | some (.num a), some (.num b) => decide (a ≠ b)
  | some (.str a), some (.str b) => decide (a ≠ b)
  | some (.bool a), some (.bool b) => decide (a ≠ b)
  | some (.table _), some (.table _) => true
  | _, _ => true

/-- The observable state of a client-side `WisprNode` (`WisprNode.ts`):
its mirrored tree, its version, and the set of path keys for which a
change signal has been registered through `listenForChange`. -/
structure WisprNodeState where
  tokenId : String
  state : Tree
  version : Int
  changeKeys : List String

/-- The signals fired by one `WisprNode.applyPatch` call. -/
structure PatchApplyResult where
  applied : Bool
  rawPatchFired : List WisprPatch
  changesFired : List (String × Option Value × Option Value)
  anyChangeFired : Bool

/-- The change-signal loop of `WisprNode.applyPatch` (`WisprNode.ts` lines
140-163): for every operation of the applied patch, resolve its signal
path; if the path is valid and a signal is registered for its key, fire it
with the new and old values when they differ under strict inequality. -/
def fireChanges (newState oldState : Tree) (changeKeys : List String) :
    List WisprPatchOp → List (String × Option Value × Option Value)
  | [] => []
  | operation :: rest =>
    let p := opSignalPath operation
    let fired :=
      if isValidPath p then
        let key := pathToKey p
        if changeKeys.contains key then
          let newValue := getValueAtPath newState p
          let oldValue := getValueAtPath oldState p
          if jsStrictNeqAfterCopy newValue oldValue then [(key, newValue, oldValue)]
          else []
        else []
      else []
    fired ++ fireChanges newState oldState changeKeys rest

/-- `WisprNode.applyPatch` (`WisprNode.ts` lines 109-169): reject a patch
whose tokenId does not match (throws); silently ignore — returning `false`,
firing nothing, changing nothing — a patch whose version is lower or equal;
otherwise fire the raw-patch signal, apply the operations, adopt the
patch's version, fire the per-path change signals for changed values, and
fire the any-change signal exactly once. -/
def nodeApplyPatch (n : WisprNodeState) (patch : WisprPatch) :
    Except String (WisprNodeState × PatchApplyResult) :=
  if patch.tokenId ≠ n.tokenId then
    .error "[WisprNode] Patch tokenId does not match node token id"
  else if patch.version ≤ n.version then
    .ok (n, { applied := false, rawPatchFired := [], changesFired := [],
              anyChangeFired := false })
  else
    match applyPatch n.state patch with
    | .error e => .error ("[WisprNode] Failed to apply patch: " ++ e)
    | .ok newState =>
      .ok ({ n with state := newState, version := patch.version },
        { applied := true, rawPatchFired := [patch],
          changesFired := fireChanges newState n.state n.changeKeys patch.operations,
          anyChangeFired := true })

/-- C1: for every observer node and every patch with matching tokenId and
`patch.version` at most the node's current version, `applyPatch` returns
`false` without throwing, the node's state and version are unchanged, and
no raw-patch, per-path change, or any-change signal fires. -/
theorem wisprNode_applyPatch_stale_noop (n : WisprNodeState) (patch : WisprPatch)
    (h1 : patch.tokenId = n.tokenId) (h2 : patch.version ≤ n.version) :
    nodeApplyPatch n patch =
      .ok (n, { applied := false, rawPatchFired := [], changesFired := [],
                anyChangeFired := false }) := by
  unfold nodeApplyPatch
  rw [if_neg (by simp [h1]), if_pos h2]

/-- Example observer node for the stale-patch claim. -/
def nodeC1 : WisprNodeState :=
  { tokenId := "t", state := [(PathKey.str "gold", Value.num 5)], version := 7,
    changeKeys := ["gold"] }

/-- Example stale patch (version equal to the node's) for the stale-patch
claim. -/
def patchC1 : WisprPatch :=
  { tokenId := "t", version := 7,
    operations := [WisprPatchOp.set [PathKey.str "gold"] (Value.num 9)] }

theorem wisprNode_applyPatch_stale_noop_w :
    nodeApplyPatch nodeC1 patchC1 =
      .ok (nodeC1, { applied := false, rawPatchFired := [], changesFired := [],
                     anyChangeFired := false }) :=
  wisprNode_applyPatch_stale_noop nodeC1 patchC1 rfl (by decide)

/-- Example observer node for the key-collision claim: a change listener is
registered via `listenForChange(["a","b"])`, stored under the joined key. -/
def nodeC9 : WisprNodeState :=
  { tokenId := "t", state := [], version := 0,
    changeKeys := [pathToKey [PathKey.str "a", PathKey.str "b"]] }

/-- Example patch for the key-collision claim: it touches the distinct path
`["a.b"]`. -/
def patchC9 : WisprPatch :=
  { tokenId := "t", version := 1,
    operations := [WisprPatchOp.set [PathKey.str "a.b"] (Value.num 5)] }

/-- C9: the path-to-subscription-key mapping joins keys with ".", so the
distinct paths `["a","b"]` and `["a.b"]` map to the same key, and a change
listener registered for `["a","b"]` fires when an applied patch changes
the value at `["a.b"]`. -/
theorem pathToKey_not_injective_cross_fire :
    [PathKey.str "a", PathKey.str "b"] ≠ [PathKey.str "a.b"] ∧
    pathToKey [PathKey.str "a", PathKey.str "b"] = pathToKey [PathKey.str "a.b"] ∧
    Except.map (fun r => r.2.changesFired) (nodeApplyPatch nodeC9 patchC9) =
      .ok [(pathToKey [PathKey.str "a", PathKey.str "b"], some (Value.num 5), none)] :=
  ⟨by decide, rfl, rfl⟩

/-- `WisprRateLimiter` (the rate-limiter module): per-identifier recorded
request timestamps plus the constructor-validated quota (`maxRequests ≥ 1`)
and window (`windowSeconds > 0`).  Timestamps are rationals since `tick()`
is real-valued. -/
structure WisprRateLimiter where
  requestTimes : List (String × List Rat)
  maxRequests : Nat
  windowSeconds : Rat

/-- `canRequest` (rate limiter, lines 38-59 of the validating variant):
reject an empty identifier (throws); lazily prune the identifier's recorded
times to those strictly inside the trailing window; deny without recording
when the pruned count has reached `maxRequests`; otherwise record this
request and allow it. -/
def canRequest (l : WisprRateLimiter) (identifier : String) (now : Rat) :
    Except String (Bool × WisprRateLimiter) :=
  if identifier = "" then
    .error "[WisprRateLimiter] identifier must be a non-empty string"
  else
    let times := (alistGet l.requestTimes identifier).getD []
    let windowStart := now - l.windowSeconds
    let recentTimes := times.filter (fun time => windowStart < time)
    if l.maxRequests ≤ recentTimes.length then
      .ok (false, l)
    else
      .ok (true,
        { l with requestTimes := alistSet l.requestTimes identifier (recentTimes ++ [now]) })

/-- Iterate `canRequest` over a list of call times, collecting the
returned booleans; harness used to state the sliding-window scenario. -/
def canRequestRun (l : WisprRateLimiter) (identifier : String) :
    List Rat → Except String (List Bool × WisprRateLimiter)
  | [] => .ok ([], l)
  | t :: ts =>
    match canRequest l identifier t with
    | .error e => .error e
    | .ok (b, l') =>
      match canRequestRun l' identifier ts with
      | .error e => .error e
      | .ok (bs, l'') => .ok (b :: bs, l'')

/-- C10: whenever `canRequest` returns `false`, the limiter state is
returned unchanged — the denied attempt is not recorded, so denied calls
never count toward the limit and never postpone the time at which a
request from that identifier is allowed again. -/
theorem canRequest_denied_leaves_state (l l' : WisprRateLimiter)
    (identifier : String) (now : Rat)
    (h : canRequest l identifier now = .ok (false, l')) : l' = l := by
  by_cases hid : identifier = ""
  · simp [canRequest, hid] at h
  · simp only [canRequest, if_neg hid] at h
    split at h
    · simp only [Except.ok.injEq, Prod.mk.injEq] at h
      exact h.2.symm
    · simp only [Except.ok.injEq, Prod.mk.injEq] at h
      exact absurd h.1 (by decide)

theorem canRequest_denied_leaves_state_w :
    ({ requestTimes := [("u", [(0 : Rat)])], maxRequests := 1, windowSeconds := 10 } :
        WisprRateLimiter) =
      { requestTimes := [("u", [(0 : Rat)])], maxRequests := 1, windowSeconds := 10 } :=
  canRequest_denied_leaves_state
    { requestTimes := [("u", [(0 : Rat)])], maxRequests := 1, windowSeconds := 10 }
    { requestTimes := [("u", [(0 : Rat)])], maxRequests := 1, windowSeconds := 10 }
    "u" 5
    (by
      have k : (5 : Rat) - 10 < 0 := by norm_num
      simp [canRequest, alistGet, List.filter, k])

/-- C6: with `maxRequests = 5` and `windowSeconds = 10`, five calls for one
identifier inside a common 10-second window all return `true`, the sixth
call inside that window returns `false`, and a later call made more than
10 seconds after every recorded request returns `true` again. -/
theorem rateLimiter_sliding_window (identifier : String) (t1 t2 t3 t4 t5 t6 t7 : Rat)
    (hid : identifier ≠ "")
    (h12 : t1 ≤ t2) (h23 : t2 ≤ t3) (h34 : t3 ≤ t4) (h45 : t4 ≤ t5) (h56 : t5 ≤ t6)
    (hwin : t6 < t1 + 10) (hgap : t5 + 10 < t7) :
    canRequestRun { requestTimes := [], maxRequests := 5, windowSeconds := 10 }
        identifier [t1, t2, t3, t4, t5, t6, t7] =
      .ok ([true, true, true, true, true, false, true],
        { requestTimes := [(identifier, [t7])], maxRequests := 5, windowSeconds := 10 }) := by
  have c1 : canRequest ⟨[], 5, 10⟩ identifier t1 =
      .ok (true, ⟨[(identifier, [t1])], 5, 10⟩) := by
    simp [canRequest, hid, alistGet, alistSet]
  have k21 : t2 - 10 < t1 := by linarith
  have c2 : canRequest ⟨[(identifier, [t1])], 5, 10⟩ identifier t2 =
      .ok (true, ⟨[(identifier, [t1, t2])], 5, 10⟩) := by
    simp [canRequest, hid, alistGet, alistSet, List.filter, k21]
  have k31 : t3 - 10 < t1 := by linarith
  have k32 : t3 - 10 < t2 := by linarith
  have c3 : canRequest ⟨[(identifier, [t1, t2])], 5, 10⟩ identifier t3 =
      .ok (true, ⟨[(identifier, [t1, t2, t3])], 5, 10⟩) := by
    simp [canRequest, hid, alistGet, alistSet, List.filter, k31, k32]
  have k41 : t4 - 10 < t1 := by linarith
  have k42 : t4 - 10 < t2 := by linarith
  have k43 : t4 - 10 < t3 := by linarith
  have c4 : canRequest ⟨[(identifier, [t1, t2, t3])], 5, 10⟩ identifier t4 =
      .ok (true, ⟨[(identifier, [t1, t2, t3, t4])], 5, 10⟩) := by
    simp [canRequest, hid, alistGet, alistSet, List.filter, k41, k42, k43]
  have k51 : t5 - 10 < t1 := by linarith
  have k52 : t5 - 10 < t2 := by linarith
  have k53 : t5 - 10 < t3 := by linarith
  have k54 : t5 - 10 < t4 := by linarith
  have c5 : canRequest ⟨[(identifier, [t1, t2, t3, t4])], 5, 10⟩ identifier t5 =
      .ok (true, ⟨[(identifier, [t1, t2, t3, t4, t5])], 5, 10⟩) := by
    simp [canRequest, hid, alistGet, alistSet, List.filter, k51, k52, k53, k54]
  have k61 : t6 - 10 < t1 := by linarith
  have k62 : t6 - 10 < t2 := by linarith
  have k63 : t6 - 10 < t3 := by linarith
  have k64 : t6 - 10 < t4 := by linarith
  have k65 : t6 - 10 < t5 := by linarith
  have c6 : canRequest ⟨[(identifier, [t1, t2, t3, t4, t5])], 5, 10⟩ identifier t6 =
      .ok (false, ⟨[(identifier, [t1, t2, t3, t4, t5])], 5, 10⟩) := by
    simp [canRequest, hid, alistGet, List.filter, k61, k62, k63, k64, k65]
  have k71 : ¬(t7 - 10 < t1) := by linarith
  have k72 : ¬(t7 - 10 < t2) := by linarith
  have k73 : ¬(t7 - 10 < t3) := by linarith
  have k74 : ¬(t7 - 10 < t4) := by linarith
  have k75 : ¬(t7 - 10 < t5) := by linarith
  have c7 : canRequest ⟨[(identifier, [t1, t2, t3, t4, t5])], 5, 10⟩ identifier t7 =
      .ok (true, ⟨[(identifier, [t7])], 5, 10⟩) := by
    simp [canRequest, hid, alistGet, alistSet, List.filter, k71, k72, k73, k74, k75]
  simp [canRequestRun, c1, c2, c3, c4, c5, c6, c7]

theorem rateLimiter_sliding_window_w :
    canRequestRun { requestTimes := [], maxRequests := 5, windowSeconds := 10 } "u"
        [0, 1, 2, 3, 4, 5, 20] =
      .ok ([true, true, true, true, true, false, true],
        { requestTimes := [("u", [20])], maxRequests := 5, windowSeconds := 10 }) :=
  rateLimiter_sliding_window "u" 0 1 2 3 4 5 20 (by decide) (by norm_num) (by norm_num)
    (by norm_num) (by norm_num) (by norm_num) (by norm_num) (by norm_num)

/-- The collection loop of `handleInitialDataRequest` (`WisprServer.ts`
lines 291-299): one create message, with a snapshot taken at call time,
for every registered node that should replicate to the player. -/
def collectCreateMessages : List (String × WisprServerNode) → Player → List WisprMessage
  | [], _ => []
  | (_, node) :: rest, player =>
    if node.shouldReplicateTo player then
      .create node.tokenId node.createSnapshot :: collectCreateMessages rest player
    else collectCreateMessages rest player

/-- `handleInitialDataRequest` (`WisprServer.ts` lines 282-302): consult
the rate limiter first and answer an empty array when denied; when
admitted, collect the create messages for the requesting player.  A player
is modelled by the identifier string used for rate limiting. -/
def handleInitialDataRequest (limiter : WisprRateLimiter)
    (nodes : List (String × WisprServerNode)) (player : Player) (now : Rat) :
    Except String (List WisprMessage × WisprRateLimiter) :=
  match canRequest limiter player now with
  | .error e => .error e
  | .ok (false, limiter') => .ok ([], limiter')
  | .ok (true, limiter') => .ok (collectCreateMessages nodes player, limiter')

theorem collectCreateMessages_eq (nodes : List (String × WisprServerNode)) (player : Player) :
    collectCreateMessages nodes player =
      (nodes.filter (fun kv => kv.2.shouldReplicateTo player)).map
        (fun kv => WisprMessage.create kv.2.tokenId kv.2.createSnapshot) := by
  induction nodes with
  | nil => rfl
  | cons kv rest ih =>
    obtain ⟨k, node⟩ := kv
    by_cases h : node.shouldReplicateTo player = true
    · simp [collectCreateMessages, List.filter, h, ih]
    · simp [collectCreateMessages, List.filter, h, ih]

/-- C7: a bootstrap request consults admission control first: when the rate
limiter denies it, the handler returns an empty array and no error; when it
admits it, the handler returns exactly one create message — carrying a
snapshot taken at call time — for each registered node with
`shouldReplicateTo player` true, in registry order, and no message for any
other node. -/
theorem handleInitialDataRequest_spec (limiter limiter' : WisprRateLimiter)
    (nodes : List (String × WisprServerNode)) (player : Player) (now : Rat) :
    (canRequest limiter player now = .ok (false, limiter') →
      handleInitialDataRequest limiter nodes player now = .ok ([], limiter')) ∧
    (canRequest limiter player now = .ok (true, limiter') →
      handleInitialDataRequest limiter nodes player now =
        .ok ((nodes.filter (fun kv => kv.2.shouldReplicateTo player)).map
          (fun kv => WisprMessage.create kv.2.tokenId kv.2.createSnapshot), limiter')) := by
  constructor
  · intro h; simp [handleInitialDataRequest, h]
  · intro h; simp [handleInitialDataRequest, h, collectCreateMessages_eq]

/-- Example rate limiter at capacity for the bootstrap claim. -/
def limiterFullC7 : WisprRateLimiter :=
  { requestTimes := [("u", [(0 : Rat)])], maxRequests := 1, windowSeconds := 10 }

/-- Example fresh rate limiter for the bootstrap claim. -/
def limiterFreshC7 : WisprRateLimiter :=
  { requestTimes := [], maxRequests := 5, windowSeconds := 10 }

/-- Example node scoped to player `u` for the bootstrap claim. -/
def nodeScopedU : WisprServerNode :=
  { tokenId := "nu", scope := .player "u", state := [], version := 0 }

/-- Example node scoped to player `v` for the bootstrap claim. -/
def nodeScopedV : WisprServerNode :=
  { tokenId := "nv", scope := .player "v", state := [], version := 0 }

theorem handleInitialDataRequest_spec_w :
    handleInitialDataRequest limiterFullC7 [("nu", nodeScopedU), ("nv", nodeScopedV)]
        "u" 5 = .ok ([], limiterFullC7) ∧
    handleInitialDataRequest limiterFreshC7 [("nu", nodeScopedU), ("nv", nodeScopedV)]
        "u" 5 =
      .ok ([WisprMessage.create "nu" ⟨"nu", 0, []⟩],
        { requestTimes := [("u", [(5 : Rat)])], maxRequests := 5, windowSeconds := 10 }) := by
  constructor
  · refine (handleInitialDataRequest_spec limiterFullC7 limiterFullC7
      [("nu", nodeScopedU), ("nv", nodeScopedV)] "u" 5).1 ?_
    have k : (5 : Rat) - 10 < 0 := by norm_num
    simp [canRequest, limiterFullC7, alistGet, List.filter, k]
  · have h := (handleInitialDataRequest_spec limiterFreshC7
      { requestTimes := [("u", [(5 : Rat)])], maxRequests := 5, windowSeconds := 10 }
      [("nu", nodeScopedU), ("nv", nodeScopedV)] "u" 5).2
      (by simp [canRequest, limiterFreshC7, alistGet, alistSet])
    simpa [WisprServerNode.shouldReplicateTo, WisprServerNode.createSnapshot,
      nodeScopedU, nodeScopedV, List.filter] using h

end Wispr
